import Mathlib

/-!
# Verification of the mandai-game round controllers

A shallow embedding, in Lean 4, of the gameplay state machines of the
mandai-game repository (a collection of Phaser mini-games), together with
proofs of the behavioural properties claimed about them.

Each game controller is embedded as a state record plus a step function
translated from the TypeScript source:

* `PaddleFood`  — the rhythm/alternation controller (`PaddleFoodScene.ts`),
* `CountEgg`    — the input-validation controller (`CountEggScene.ts`),
* `UIM`         — the popup manager (`UIManager.ts`),
* `MatchPenguin`— the sequential matching controller (`MatchPenguinScene`),
* `CatchFish`   — the timed tap-catch controller (`CatchFishScene`).

Visual-only effects (tweens of position/alpha, textures, particles) are
omitted except where they carry game state: a scheduled destroy tween is
modelled as a `pendingDestroy` flag resolved by a completion event, and
feedback toasts are modelled as an append-only log where a claim is about
feedback being (or not being) emitted.  Randomness (spawn offsets, shuffle
orders) is passed in as explicit parameters of the corresponding events.
-/

namespace PaddleFood

/-- The two tap zones (`enum PaddleSide`). -/
inductive PaddleSide where
  | left
  | right
  deriving DecidableEq, Repr

/-- `enum GameState { Idle, Swimming, Finished }`. -/
inductive GameState where
  | Idle
  | Swimming
  | Finished
  deriving DecidableEq, Repr

/-- `const BASE_STEP = 5` — progress gained per correct tap. -/
def BASE_STEP : Nat := 5

/-- `const MAX_PROGRESS = 100`. -/
def MAX_PROGRESS : Nat := 100

/-- `const MAX_TAPS = MAX_PROGRESS / BASE_STEP` — correct taps required to win. -/
def MAX_TAPS : Nat := MAX_PROGRESS / BASE_STEP

/-- The gameplay state of `PaddleFoodScene`: the fields of the scene class
that drive the tap logic.  `hasPopup` mirrors `uiManager.hasActivePopup()`,
which `onTap` consults. -/
structure State where
  progress : Nat
  expectedSide : PaddleSide
  gameState : GameState
  tapCount : Nat
  hasPopup : Bool
  deriving DecidableEq, Repr

/-- `resetState()` / field initialisers: progress 0, expected side Left,
state Idle, no taps. -/
def initState : State :=
  { progress := 0, expectedSide := .left, gameState := .Idle,
    tapCount := 0, hasPopup := false }

/-- `handleCorrectTap(side)`: clamp-add `BASE_STEP` to progress, flip the
expected side, count the tap, switch Idle → Swimming on the first tap, and
go to Finished the instant progress reaches the maximum.  (Foot animation,
zone flash, track scroll and lane-asset spawning are visual only.) -/
def handleCorrectTap (s : State) (side : PaddleSide) : State :=
  let s1 : State :=
    { s with
      progress := min MAX_PROGRESS (s.progress + BASE_STEP),
      expectedSide := if side = PaddleSide.left then .right else .left,
      tapCount := s.tapCount + 1 }
  let s2 : State :=
    if s1.gameState = GameState.Idle then { s1 with gameState := .Swimming } else s1
  if MAX_PROGRESS ≤ s2.progress then { s2 with gameState := .Finished } else s2

/-- `onTap(side)`: ignore taps once Finished or while a popup is showing;
a tap on the expected side is handled by `handleCorrectTap`, a wrong-side
tap only flashes the zone red (no state change). -/
def onTap (s : State) (side : PaddleSide) : State :=
  if s.gameState = GameState.Finished then s
  else if s.hasPopup then s
  else if side = s.expectedSide then handleCorrectTap s side
  else s

/-- A run of the scene: `create()` then a sequence of taps. -/
def run (taps : List PaddleSide) : State :=
  taps.foldl onTap initState

/-- The invariant maintained across any sequence of taps. -/
def RunInv (s : State) : Prop :=
  s.progress = BASE_STEP * s.tapCount ∧
  s.tapCount ≤ MAX_TAPS ∧
  (s.gameState = GameState.Finished ↔ s.tapCount = MAX_TAPS) ∧
  s.hasPopup = false

end PaddleFood

namespace CountEgg

/-- `const DEFAULT_CORRECT_ANSWER = '4'`. -/
def DEFAULT_CORRECT_ANSWER : String := "4"

/-- `const INPUT_MAX_LENGTH = 10`. -/
def INPUT_MAX_LENGTH : Nat := 10

/-- `const ERROR_FLASH_DURATION = 600` (milliseconds). -/
def ERROR_FLASH_DURATION : Nat := 600

/-- The gameplay state of `CountEggScene`.  `inputTinted` mirrors the error
tint on `inputFieldImage`, `popupPending` the `delayedCall(300, showPopup)`
scheduled on success, and `flashTimer` the
`delayedCall(ERROR_FLASH_DURATION, ...)` scheduled on failure. -/
structure State where
  inputValue : String
  isErrorFlashing : Bool
  inputTinted : Bool
  overlayOpen : Bool
  correctAnswer : String
  popupPending : Bool
  flashTimer : Bool
  deriving DecidableEq, Repr

/-- Modelled from the spec: `BaseScene.getQueryParam(param)` is referenced
by `CountEggScene.create` and documented in the README as a "utility for
reading URL query parameters", but its body is not among the repository's
staged files.  Following the spec ("an external string parameter
(URL query-style) supplies the expected numeric answer"), it is modelled as
a plain lookup in the URL's query-parameter list, returning the parameter's
raw string value, or nothing when the parameter is absent. -/
def getQueryParam (params : List (String × String)) (name : String) :
    Option String :=
  (params.find? (fun p => p.1 == name)).map (fun p => p.2)

/-- `this.correctAnswer = this.getQueryParam('total_egg') ||
DEFAULT_CORRECT_ANSWER` — JavaScript `||` falls back exactly on a falsy
left operand, i.e. when the parameter is absent (`null`) or the empty
string. -/
def correctAnswerFromParams (params : List (String × String)) : String :=
  match getQueryParam params "total_egg" with
  | none => DEFAULT_CORRECT_ANSWER
  | some v => if v = "" then DEFAULT_CORRECT_ANSWER else v

/-- `create()`: fresh scene state; the expected answer is computed once
here, from the query parameter. -/
def create (params : List (String × String)) : State :=
  { inputValue := "", isErrorFlashing := false, inputTinted := false,
    overlayOpen := false, correctAnswer := correctAnswerFromParams params,
    popupPending := false, flashTimer := false }

/-- `openOverlay()`: no-op when already open; resets the typed value and
the flash flag, then shows the keypad overlay. -/
def openOverlay (s : State) : State :=
  if s.overlayOpen then s
  else { s with inputValue := "", isErrorFlashing := false, overlayOpen := true }

/-- `closeOverlay()`: no-op when no overlay is open. -/
def closeOverlay (s : State) : State :=
  if s.overlayOpen then { s with overlayOpen := false } else s

/-- `handleKeyPress(key)`: ignored entirely while the error flash is in
progress; backspace drops the last character, a comma is accepted at most
once, digits are appended up to `INPUT_MAX_LENGTH`; any accepted press also
clears a leftover error tint. -/
def handleKeyPress (s : State) (key : String) : State :=
  if s.isErrorFlashing then s
  else
    let s1 : State :=
      if key = "⌫" then { s with inputValue := s.inputValue.dropRight 1 }
      else if key = "," then
        if s.inputValue.length < INPUT_MAX_LENGTH ∧
            s.inputValue.contains ',' = false then
          { s with inputValue := s.inputValue ++ key }
        else s
      else
        if s.inputValue.length < INPUT_MAX_LENGTH then
          { s with inputValue := s.inputValue ++ key }
        else s
    { s1 with inputTinted := false }

/-- `handleCorrectAnswer()`: close the overlay, then a delayed call shows
the "Well Done!" popup. -/
def handleCorrectAnswer (s : State) : State :=
  { closeOverlay s with popupPending := true }

/-- `handleWrongAnswer()`: tint the input field, set the flash flag and
schedule the `ERROR_FLASH_DURATION` timer.  The input value is untouched. -/
def handleWrongAnswer (s : State) : State :=
  { s with isErrorFlashing := true, inputTinted := true, flashTimer := true }

/-- The `delayedCall(ERROR_FLASH_DURATION, ...)` callback: clear the tint
and the flash flag. -/
def flashTimerFire (s : State) : State :=
  if s.flashTimer then
    { s with inputTinted := false, isErrorFlashing := false, flashTimer := false }
  else s

/-- `handleSubmit()`: debounced no-op during a flash or on empty input;
otherwise exact string equality with the expected answer decides
success/failure. -/
def handleSubmit (s : State) : State :=
  if s.isErrorFlashing then s
  else if s.inputValue.length = 0 then s
  else if s.inputValue = s.correctAnswer then handleCorrectAnswer s
  else handleWrongAnswer s

end CountEgg

namespace UIM

/-- The popup state of a `UIManager` instance.  `active` is the
`activePopup` field (the installed popup's container, identified by a
creation id); `live` are the containers created and not yet destroyed
(a dismissed popup stays alive while its fade-out tween runs); `fading`
are the containers whose fade-out tween is running; `nextId` counts
created containers. -/
structure State where
  active : Option Nat
  live : List Nat
  fading : List Nat
  nextId : Nat
  deriving DecidableEq, Repr

def initState : State := { active := none, live := [], fading := [], nextId := 0 }

/-- `showPopup(config)`: destroy the currently active popup immediately (no
fade), then build and install the new popup container. -/
def showPopup (s : State) : State :=
  let s1 : State :=
    match s.active with
    | some p => { s with live := s.live.erase p, active := none }
    | none => s
  { s1 with
    live := s1.live ++ [s1.nextId],
    active := some s1.nextId,
    nextId := s1.nextId + 1 }

/-- `dismissPopup()`: no-op when no popup is showing; otherwise uninstall
the popup and start its fade-out tween (the container is destroyed only
when the tween completes). -/
def dismissPopup (s : State) : State :=
  match s.active with
  | none => s
  | some p => { s with active := none, fading := s.fading ++ [p] }

/-- The fade-out tween's `onComplete`: `popup.destroy()`. -/
def fadeDone (s : State) (p : Nat) : State :=
  if p ∈ s.fading then
    { s with live := s.live.erase p, fading := s.fading.erase p }
  else s

/-- `hasActivePopup()`: `activePopup !== null`. -/
def hasActivePopup (s : State) : Bool := s.active.isSome

inductive Event where
  | showEv
  | dismissEv
  | fadeEv (p : Nat)
  deriving DecidableEq, Repr

def step (s : State) (e : Event) : State :=
  match e with
  | .showEv => showPopup s
  | .dismissEv => dismissPopup s
  | .fadeEv p => fadeDone s p

inductive Reachable : State → Prop where
  | init : Reachable initState
  | step {s : State} (hs : Reachable s) (e : Event) : Reachable (step s e)

/-- The structural invariant of the popup manager. -/
def PopupInv (s : State) : Prop :=
  (∀ q ∈ s.live, q < s.nextId) ∧
  (∀ q ∈ s.fading, q < s.nextId) ∧
  s.live.Nodup ∧
  (∀ p, s.active = some p → p ∈ s.live ∧ p ∉ s.fading)

end UIM

namespace MatchPenguin

/-- `enum MatchState { Idle, Dragging, Animating, Finished }`. -/
inductive MatchState where
  | Idle
  | Dragging
  | Animating
  | Finished
  deriving DecidableEq, Repr

/-- `type PenguinId = 'a' | 'b' | 'c'`. -/
inductive PenguinId where
  | a
  | b
  | c
  deriving DecidableEq, Repr

/-- `const PENGUIN_IDS = ['a', 'b', 'c']`. -/
def PENGUIN_IDS : List PenguinId := [.a, .b, .c]

/-- `interface BabyPenguin` — a Choice Set member.  `interactive` mirrors
the sprite's Phaser interactivity (`disableInteractive` on match), `dimmed`
its 0.4-alpha visual state during a drag or after a match. -/
structure BabyPenguin where
  id : PenguinId
  matched : Bool
  interactive : Bool
  dimmed : Bool
  deriving DecidableEq, Repr

/-- The feedback toasts (`correct.png` / `try-again.png`). -/
inductive Feedback where
  | correct
  | tryAgain
  deriving DecidableEq, Repr

/-- The pending tween chain whose completion drives the next transition:
the spawn slide-in/fade-in (completion returns to Idle), or the
correct-match snap/slide-out chain (completion advances the queue). -/
inductive Anim where
  | slideIn
  | matchOut
  deriving DecidableEq, Repr

/-- The gameplay state of `MatchPenguinScene`.  `activeParent` mirrors
`activeParentSprite !== null`, `activeDrag` the index of the baby being
dragged, `feedback` the log of toasts shown so far (so that "no feedback"
is part of "no state change"). -/
structure State where
  matchState : MatchState
  babies : List BabyPenguin
  parentQueue : List PenguinId
  activeParentIndex : Nat
  activeParent : Bool
  dropAreaVisible : Bool
  activeDrag : Option Nat
  pending : Option Anim
  feedback : List Feedback
  deriving DecidableEq, Repr

/-- `spawnNextParent()`: once the queue is exhausted run
`handleAllMatched()` (state Finished, celebration, delayed popup);
otherwise enter Animating, create the drop area and the next parent, and
start the slide-in tweens whose completion returns to Idle. -/
def spawnNextParent (s : State) : State :=
  if PENGUIN_IDS.length ≤ s.activeParentIndex then
    { s with matchState := .Finished }
  else
    { s with matchState := .Animating, activeParent := true,
             dropAreaVisible := true, pending := some .slideIn }

/-- `create()`: `initState()` with the two shuffle outcomes supplied as
parameters (`buildParentQueue` / `createChildren`), then `spawnNextParent`. -/
def create (queueOrder babyOrder : List PenguinId) : State :=
  spawnNextParent
    { matchState := .Idle,
      babies := babyOrder.map (fun i =>
        { id := i, matched := false, interactive := true, dimmed := false }),
      parentQueue := queueOrder,
      activeParentIndex := 0,
      activeParent := false,
      dropAreaVisible := false,
      activeDrag := none,
      pending := none,
      feedback := [] }

/-- `handleDragStart(baby, pointer)`: ignored unless the state is Idle and
the baby is unmatched (and, at the Phaser level, the sprite is still
interactive); otherwise enter Dragging, dim the original and create the
drag clone. -/
def handleDragStart (s : State) (b : Nat) : State :=
  match s.babies.get? b with
  | none => s
  | some baby =>
    if baby.interactive = false then s
    else if s.matchState ≠ MatchState.Idle then s
    else if baby.matched then s
    else
      { s with matchState := .Dragging, activeDrag := some b,
               babies := s.babies.set b { baby with dimmed := true } }

/-- `handleCorrectMatch(baby, clone)`: freeze input (Animating), mark the
baby matched and disable it, hide the drop area, show the success toast,
and start the snap/slide-out tween chain whose completion advances the
queue. -/
def handleCorrectMatch (s : State) (b : Nat) (baby : BabyPenguin) : State :=
  if s.activeParent = false then s
  else
    { s with matchState := .Animating,
             babies := s.babies.set b
               { baby with matched := true, interactive := false },
             activeDrag := none,
             dropAreaVisible := false,
             feedback := s.feedback ++ [Feedback.correct],
             pending := some .matchOut }

/-- `handleWrongMatch(baby, clone)`: restore the baby, destroy the clone,
return to Idle and show the try-again toast (only while a parent is on
screen). -/
def handleWrongMatch (s : State) (b : Nat) (baby : BabyPenguin) : State :=
  { s with babies := s.babies.set b { baby with dimmed := false },
           activeDrag := none,
           matchState := .Idle,
           feedback := if s.activeParent then s.feedback ++ [Feedback.tryAgain]
                       else s.feedback }

/-- `handleMiss(baby, clone)`: like a wrong match but with no feedback. -/
def handleMiss (s : State) (b : Nat) (baby : BabyPenguin) : State :=
  { s with babies := s.babies.set b { baby with dimmed := false },
           activeDrag := none,
           matchState := .Idle }

/-- `onPointerUp()` → `handleDrop()`: resolve the drag against the
drop-area hit test (`overDrop` is the result of `isOverDropArea` on the
clone's position) and the current target's id.  A missing queue entry
cannot occur while a parent is active (`activeParentSprite` guard). -/
def onPointerUp (s : State) (overDrop : Bool) : State :=
  match s.activeDrag with
  | none => s
  | some b =>
    if s.activeParent = false then s
    else
      match s.babies.get? b, s.parentQueue.get? s.activeParentIndex with
      | some baby, some target =>
        if overDrop then
          if baby.id = target then handleCorrectMatch s b baby
          else handleWrongMatch s b baby
        else handleMiss s b baby
      | _, _ => s

inductive Event where
  | dragStart (b : Nat)
  | pointerUp (overDrop : Bool)
  | animDoneEv
  deriving DecidableEq, Repr

/-- One scheduler/input event.  `animDoneEv` is the completion of the
pending tween chain: the slide-in completion returns to Idle, the
correct-match slide-out completion destroys the parent and drop area,
advances `activeParentIndex` by one and spawns the next parent. -/
def step (s : State) (e : Event) : State :=
  match e with
  | .dragStart b => handleDragStart s b
  | .pointerUp overDrop => onPointerUp s overDrop
  | .animDoneEv =>
    match s.pending with
    | none => s
    | some .slideIn => { s with pending := none, matchState := .Idle }
    | some .matchOut =>
      spawnNextParent
        { s with activeParent := false, dropAreaVisible := false,
                 pending := none,
                 activeParentIndex := s.activeParentIndex + 1 }

end MatchPenguin

namespace CatchFish

/-- `const TARGET_CATCH = 10`. -/
def TARGET_CATCH : Nat := 10

/-- `const FISH_MIN_SPACING = 90` (pixels). -/
def FISH_MIN_SPACING : Int := 90

/-- `const FISH_SPAWN_MAX_ATTEMPTS = 15`. -/
def FISH_SPAWN_MAX_ATTEMPTS : Nat := 15

/-- `GAME_WIDTH` from `Config` (design resolution). -/
def GAME_WIDTH : Int := 480

/-- `GAME_HEIGHT` from `Config` (design resolution). -/
def GAME_HEIGHT : Int := 854

/-- `const FISH_SPAWN_X_MARGIN = 60`. -/
def FISH_SPAWN_X_MARGIN : Int := 60

/-- `const FISH_SPAWN_Y_MIN = 220`. -/
def FISH_SPAWN_Y_MIN : Int := 220

/-- `const BIRD_CENTER_Y = 480` — the bird sprite's y. -/
def BIRD_CENTER_Y : Int := 480

/-- `this.cx` — the bird sprite's x. -/
def birdX : Int := GAME_WIDTH / 2

/-- One spawned fish sprite.  `destroyed` is the negation of Phaser's
`active` flag (true once `destroy()` ran); `interactive` whether
`pointerdown` is still delivered; `pendingDestroy` whether a
shrink/fade-out tween whose completion destroys the sprite is running. -/
structure Fish where
  x : Int
  y : Int
  destroyed : Bool
  interactive : Bool
  pendingDestroy : Bool
  deriving DecidableEq, Repr

/-- The gameplay state of `CatchFishScene`.  `fishes` holds every fish
spawned so far in spawn order (a fish's id is its index and ids are never
reused), `activeFish` the scene's `activeFish` array as a list of ids,
`spawnScheduled` whether a `scheduleNextSpawn` timer is outstanding. -/
structure State where
  caughtCount : Nat
  isGameOver : Bool
  fishes : List Fish
  activeFish : List Nat
  spawnScheduled : Bool
  deriving DecidableEq, Repr

/-- `create()` + `startSpawning()`: counter 0, no fish, first spawn timer
scheduled. -/
def initState : State :=
  { caughtCount := 0, isGameOver := false, fishes := [], activeFish := [],
    spawnScheduled := true }

/-- `Phaser.Math.Clamp(value, min, max)` = `Math.max(min, Math.min(max, value))`. -/
def clamp (v lo hi : Int) : Int := max lo (min v hi)

/-- The candidate position of one placement attempt in `spawnFish`: the
random polar offset from the bird (drawn as `cos/sin · dist`, supplied
here as the offset pair) clamped into the spawn bounds. -/
def candidatePos (off : Int × Int) : Int × Int :=
  (clamp (birdX + off.1) FISH_SPAWN_X_MARGIN (GAME_WIDTH - FISH_SPAWN_X_MARGIN),
   clamp (BIRD_CENTER_Y + off.2) FISH_SPAWN_Y_MIN (GAME_HEIGHT - 60))

/-- `isOverlappingFish(x, y)`: some fish of the active array that is still
alive lies strictly closer than `FISH_MIN_SPACING`. -/
def isOverlappingFish (s : State) (x y : Int) : Bool :=
  s.activeFish.any (fun i =>
    match s.fishes[i]? with
    | none => false
    | some fish =>
      if fish.destroyed then false
      else
        decide ((fish.x - x) * (fish.x - x) + (fish.y - y) * (fish.y - y)
          < FISH_MIN_SPACING * FISH_MIN_SPACING))

/-- The placement loop of `spawnFish`: up to `FISH_SPAWN_MAX_ATTEMPTS`
candidates are drawn (`offs` is the stream of random offsets) and the
first non-overlapping one is kept. -/
def findPlacement (s : State) (offs : List (Int × Int)) : Option (Int × Int) :=
  (offs.take FISH_SPAWN_MAX_ATTEMPTS).find?
    (fun off => !(isOverlappingFish s (candidatePos off).1 (candidatePos off).2))

/-- `spawnFish()`: nothing once game over; if no placement is found within
the attempt budget, silently skip (no fish, no error); otherwise create an
interactive fish at the found position, append it to the active array, and
schedule its lifetime-expiry call. -/
def spawnFish (s : State) (offs : List (Int × Int)) : State :=
  if s.isGameOver then s
  else
    match findPlacement s offs with
    | none => s
    | some off =>
      { s with
        fishes := s.fishes ++
          [{ x := (candidatePos off).1, y := (candidatePos off).2,
             destroyed := false, interactive := true, pendingDestroy := false }],
        activeFish := s.activeFish ++ [s.fishes.length] }

/-- Overwrite fish `i` (mutation of the sprite object). -/
def setFish (s : State) (i : Nat) (f : Fish) : State :=
  { s with fishes := s.fishes.set i f }

/-- `removeFishFromActive(fish)`: `indexOf` + `splice(idx, 1)` — remove the
first occurrence, no-op when absent. -/
def removeFishFromActive (s : State) (i : Nat) : State :=
  { s with activeFish := s.activeFish.erase i }

/-- One iteration of `handleWin`'s forEach: start the fade-out tween (whose
completion destroys the sprite) on a fish that is still alive. -/
def markPendingDestroy (s : State) (i : Nat) : State :=
  match s.fishes[i]? with
  | none => s
  | some f => if f.destroyed then s else setFish s i { f with pendingDestroy := true }

/-- `handleWin()`: set game over, destroy the spawn timer, fade out every
remaining active fish, clear the active array (celebration, floating text
and the delayed popup are visual). -/
def handleWin (s : State) : State :=
  let s1 : State := { s with isGameOver := true, spawnScheduled := false }
  let s2 : State := s1.activeFish.foldl markPendingDestroy s1
  { s2 with activeFish := [] }

/-- `escapeFish(fish)`: guard on the sprite still being alive, then disable
interaction, remove it from the active array and start the fade-out tween
that will destroy it. -/
def escapeFish (s : State) (i : Nat) : State :=
  match s.fishes[i]? with
  | none => s
  | some f =>
    if f.destroyed then s
    else
      removeFishFromActive
        (setFish s i { f with interactive := false, pendingDestroy := true }) i

/-- `catchFish(fish)`: guard on the sprite being alive and the game not
over; then disable interaction, remove the fish from the active array,
start the shrink tween that will destroy it (splash and toast are visual),
increment the counter, and run `handleWin` at the target. -/
def catchFish (s : State) (i : Nat) : State :=
  match s.fishes[i]? with
  | none => s
  | some f =>
    if f.destroyed ∨ s.isGameOver then s
    else
      let s1 : State :=
        removeFishFromActive
          (setFish s i { f with interactive := false, pendingDestroy := true }) i
      let s2 : State := { s1 with caughtCount := s1.caughtCount + 1 }
      if TARGET_CATCH ≤ s2.caughtCount then handleWin s2 else s2

/-- The scheduler/input events driving the scene.  `spawnTick` is the
spawn timer firing (its callback runs `spawnFish` then
`scheduleNextSpawn`), `tap i` a `pointerdown` on fish `i` (delivered only
while the sprite is interactive and alive), `expire i` the
`FISH_LIFETIME` delayed call of fish `i` (its callback guards on
`fish.active`), and `destroyDone i` the completion of an outstanding
destroy tween (`fish.destroy()`). -/
inductive Event where
  | spawnTick (offs : List (Int × Int))
  | tap (i : Nat)
  | expire (i : Nat)
  | destroyDone (i : Nat)
  deriving DecidableEq, Repr

def step (s : State) (e : Event) : State :=
  match e with
  | .spawnTick offs =>
    if s.spawnScheduled then
      let s1 : State := spawnFish { s with spawnScheduled := false } offs
      if s1.isGameOver then s1 else { s1 with spawnScheduled := true }
    else s
  | .tap i =>
    match s.fishes[i]? with
    | none => s
    | some f =>
      if f.interactive = true ∧ f.destroyed = false then catchFish s i else s
  | .expire i =>
    match s.fishes[i]? with
    | none => s
    | some f => if f.destroyed = false then escapeFish s i else s
  | .destroyDone i =>
    match s.fishes[i]? with
    | none => s
    | some f =>
      if f.pendingDestroy = true ∧ f.destroyed = false then
        setFish s i { f with destroyed := true }
      else s

/-- Multi-step reachability of the event system. -/
inductive ReachFrom (s : State) : State → Prop where
  | refl : ReachFrom s s
  | step {t : State} (h : ReachFrom s t) (e : Event) : ReachFrom s (step t e)

/-- A state of some run of the scene. -/
def Reachable (s : State) : Prop := ReachFrom initState s

/-- The structural invariant of every reachable scene state. -/
structure Inv (s : State) : Prop where
  caught_le : s.caughtCount ≤ TARGET_CATCH
  over_iff : s.isGameOver = true ↔ s.caughtCount = TARGET_CATCH
  nodup : s.activeFish.Nodup
  mem_lt : ∀ i ∈ s.activeFish, i < s.fishes.length
  mem_live : ∀ i ∈ s.activeFish, ∀ f, s.fishes[i]? = some f →
    f.interactive = true ∧ f.destroyed = false ∧ f.pendingDestroy = false
  over_clear : s.isGameOver = true → s.activeFish = [] ∧ s.spawnScheduled = false

/-- Fish `i` has taken its terminal transition: its sprite is
non-interactive, its destroy tween is pending (or done), and it has left
the active array.  This holds right after a catch and right after an
escape, and persists forever. -/
def Gone (s : State) (i : Nat) : Prop :=
  ∃ f, s.fishes[i]? = some f ∧ f.interactive = false ∧
    f.pendingDestroy = true ∧ i ∉ s.activeFish

end CatchFish

namespace PaddleFood

theorem runInv_init : RunInv initState := by
  refine ⟨rfl, by decide, ?_, rfl⟩
  constructor
  · intro h; cases h
  · intro h; exact absurd h (by decide)

theorem hct_fields (s : State) (side : PaddleSide) :
    (handleCorrectTap s side).progress = min MAX_PROGRESS (s.progress + BASE_STEP) ∧
    (handleCorrectTap s side).tapCount = s.tapCount + 1 ∧
    (handleCorrectTap s side).hasPopup = s.hasPopup ∧
    (handleCorrectTap s side).expectedSide
      = (if side = PaddleSide.left then PaddleSide.right else PaddleSide.left) := by
  unfold handleCorrectTap
  by_cases hi : s.gameState = GameState.Idle <;>
    by_cases hc : MAX_PROGRESS ≤ min MAX_PROGRESS (s.progress + BASE_STEP) <;>
      simp [hi, hc]

theorem hct_finished (s : State) (side : PaddleSide)
    (h : s.gameState ≠ GameState.Finished) :
    (handleCorrectTap s side).gameState = GameState.Finished ↔
      MAX_PROGRESS ≤ min MAX_PROGRESS (s.progress + BASE_STEP) := by
  unfold handleCorrectTap
  by_cases hi : s.gameState = GameState.Idle <;>
    by_cases hc : MAX_PROGRESS ≤ min MAX_PROGRESS (s.progress + BASE_STEP) <;>
      simp [hi, hc, h]

theorem runInv_step (s : State) (side : PaddleSide) (h : RunInv s) :
    RunInv (onTap s side) := by
  obtain ⟨hp, hle, hfin, hpop⟩ := h
  unfold onTap
  split_ifs with h1 h2 h3
  · exact ⟨hp, hle, hfin, hpop⟩
  · exact ⟨hp, hle, hfin, hpop⟩
  · obtain ⟨f1, f2, f3, f4⟩ := hct_fields s side
    have hfin2 := hct_finished s side h1
    have htne : s.tapCount ≠ MAX_TAPS := fun hh => h1 (hfin.mpr hh)
    refine ⟨?_, ?_, ?_, ?_⟩
    · rw [f1, f2, hp]
      simp only [MAX_TAPS, MAX_PROGRESS, BASE_STEP] at *
      omega
    · rw [f2]
      simp only [MAX_TAPS, MAX_PROGRESS, BASE_STEP] at *
      omega
    · rw [f2, hfin2, hp]
      simp only [MAX_TAPS, MAX_PROGRESS, BASE_STEP] at *
      omega
    · rw [f3, hpop]
  · exact ⟨hp, hle, hfin, hpop⟩

theorem runInv_run (taps : List PaddleSide) : RunInv (run taps) := by
  unfold run
  suffices h : ∀ (l : List PaddleSide) (s : State), RunInv s → RunInv (l.foldl onTap s) by
    exact h taps initState runInv_init
  intro l
  induction l with
  | nil => intro s hs; exact hs
  | cons a l ih => intro s hs; exact ih _ (runInv_step s a hs)

/-- C3: in the rhythm (paddle-food) controller, a tap on the expected side
(while the game is not finished and no popup is showing, i.e. an accepted
tap) flips the expected-side flag exactly once — the new expected side is
the opposite of the old one, so the expected side strictly alternates
across consecutive accepted taps — and a tap on the wrong side leaves both
the expected-side flag and the progress value unchanged. -/
theorem c3_rhythm_alternation (s : State) (side : PaddleSide) :
    (s.gameState ≠ GameState.Finished → s.hasPopup = false →
      side = s.expectedSide →
      (onTap s side).expectedSide ≠ s.expectedSide ∧
      (onTap s side).expectedSide =
        (if s.expectedSide = PaddleSide.left then PaddleSide.right
         else PaddleSide.left)) ∧
    (side ≠ s.expectedSide →
      (onTap s side).expectedSide = s.expectedSide ∧
      (onTap s side).progress = s.progress) := by
  constructor
  · intro hf hpop hside
    have h4 := (hct_fields s side).2.2.2
    unfold onTap
    rw [if_neg hf, hpop]
    simp only [Bool.false_eq_true, if_false, if_pos hside]
    rw [h4, hside]
    cases hse : s.expectedSide <;> simp
  · intro hside
    unfold onTap
    split_ifs <;> simp_all

/-- Witness for `c3_rhythm_alternation` at the initial state: the very first
left tap is accepted and flips the expected side. -/
theorem c3_rhythm_alternation_witness :
    (onTap initState PaddleSide.left).expectedSide ≠ initState.expectedSide ∧
    (onTap initState PaddleSide.left).expectedSide =
      (if initState.expectedSide = PaddleSide.left then PaddleSide.right
       else PaddleSide.left) :=
  (c3_rhythm_alternation initState PaddleSide.left).1 (by decide) rfl rfl

/-- C4: in the rhythm (paddle-food) controller, each accepted tap increments
progress by exactly the fixed base step of 5, progress is clamped to
[0, 100] (it always equals `BASE_STEP` times the number of accepted taps
and never exceeds `MAX_PROGRESS`), exactly 20 accepted taps are needed to
win (`Finished` holds exactly when 20 taps have been accepted, equivalently
when progress is 100), and the instant progress reaches 100 the state
becomes `Finished`, after which every tap on either side is ignored. -/
theorem c4_rhythm_progress (taps : List PaddleSide) :
    BASE_STEP = 5 ∧ MAX_PROGRESS = 100 ∧ MAX_TAPS = 20 ∧
    (run taps).progress = BASE_STEP * (run taps).tapCount ∧
    (run taps).progress ≤ MAX_PROGRESS ∧
    (run taps).tapCount ≤ MAX_TAPS ∧
    ((run taps).gameState = GameState.Finished ↔
      (run taps).tapCount = MAX_TAPS) ∧
    ((run taps).gameState = GameState.Finished ↔
      (run taps).progress = MAX_PROGRESS) ∧
    (∀ side, (run taps).gameState ≠ GameState.Finished →
      side = (run taps).expectedSide →
      (onTap (run taps) side).progress = (run taps).progress + BASE_STEP) ∧
    ((run taps).gameState = GameState.Finished →
      ∀ side, onTap (run taps) side = run taps) := by
  obtain ⟨hp, hle, hfin, hpop⟩ := runInv_run taps
  refine ⟨rfl, rfl, rfl, hp, ?_, hle, hfin, ?_, ?_, ?_⟩
  · rw [hp]
    simp only [MAX_TAPS, MAX_PROGRESS, BASE_STEP] at *
    omega
  · rw [hfin, hp]
    simp only [MAX_TAPS, MAX_PROGRESS, BASE_STEP] at *
    omega
  · intro side hf hside
    have htne : (run taps).tapCount ≠ MAX_TAPS := fun hh => hf (hfin.mpr hh)
    unfold onTap
    rw [if_neg hf, hpop]
    simp only [Bool.false_eq_true, if_false, if_pos hside]
    rw [(hct_fields (run taps) side).1, hp]
    simp only [MAX_TAPS, MAX_PROGRESS, BASE_STEP] at *
    omega
  · intro hf side
    unfold onTap
    rw [if_pos hf]

/-- Witness for `c4_rhythm_progress` on the one-tap run: the accepted second
tap adds exactly `BASE_STEP`, and the run is not yet finished. -/
theorem c4_rhythm_progress_witness :
    (onTap (run [PaddleSide.left]) PaddleSide.right).progress
      = (run [PaddleSide.left]).progress + BASE_STEP := by
  have h := c4_rhythm_progress [PaddleSide.left]
  exact h.2.2.2.2.2.2.2.2.1 PaddleSide.right (by decide) (by decide)

end PaddleFood

namespace CountEgg

theorem length_zero_iff_empty (v : String) : v.length = 0 ↔ v = "" := by
  cases v with
  | mk data =>
    simp only [String.length]
    constructor
    · intro h
      have hd : data = [] := List.length_eq_zero.mp h
      rw [hd]
    · intro h
      have hd : data = [] := congrArg String.data h
      simp [hd]

theorem handleSubmit_of_wrong (s : State) (hfl : s.isErrorFlashing = false)
    (hne : s.inputValue ≠ "") (hw : s.inputValue ≠ s.correctAnswer) :
    handleSubmit s = handleWrongAnswer s := by
  unfold handleSubmit
  have hlen : ¬ s.inputValue.length = 0 :=
    fun h => hne ((length_zero_iff_empty s.inputValue).mp h)
  rw [hfl]
  simp only [Bool.false_eq_true, if_false]
  rw [if_neg hlen, if_neg hw]

theorem handleSubmit_of_correct (s : State) (hfl : s.isErrorFlashing = false)
    (hne : s.inputValue ≠ "") (hc : s.inputValue = s.correctAnswer) :
    handleSubmit s = handleCorrectAnswer s := by
  unfold handleSubmit
  have hlen : ¬ s.inputValue.length = 0 :=
    fun h => hne ((length_zero_iff_empty s.inputValue).mp h)
  rw [hfl]
  simp only [Bool.false_eq_true, if_false]
  rw [if_neg hlen, if_pos hc]

/-- C6: in the count-egg controller, Submit is a no-op (no state change and
hence no feedback) when the input string is empty or while a failure flash
is in progress; otherwise it takes the success path if and only if the input
string is exactly equal (string equality) to the expected answer, and on
inequality it takes the failure path (which sets the error flash).  The
success path closes the overlay and schedules the success popup. -/
theorem c6_countegg_submit (s : State) :
    (s.isErrorFlashing = true → handleSubmit s = s) ∧
    (s.inputValue = "" → handleSubmit s = s) ∧
    (s.isErrorFlashing = false → s.inputValue ≠ "" →
      ((handleSubmit s = handleCorrectAnswer s) ↔
        s.inputValue = s.correctAnswer) ∧
      (s.inputValue ≠ s.correctAnswer →
        handleSubmit s = handleWrongAnswer s ∧
        (handleSubmit s).isErrorFlashing = true)) ∧
    (handleCorrectAnswer s).overlayOpen = false ∧
    (handleCorrectAnswer s).popupPending = true ∧
    (handleWrongAnswer s).isErrorFlashing = true := by
  refine ⟨?_, ?_, ?_, ?_, ?_, ?_⟩
  · intro h
    unfold handleSubmit
    rw [h]
    simp
  · intro h
    unfold handleSubmit
    have hlen : s.inputValue.length = 0 := (length_zero_iff_empty s.inputValue).mpr h
    by_cases h1 : s.isErrorFlashing
    · rw [if_pos h1]
    · rw [if_neg h1, if_pos hlen]
  · intro hfl hne
    constructor
    · constructor
      · intro heq
        by_contra hw
        rw [handleSubmit_of_wrong s hfl hne hw] at heq
        have := congrArg State.isErrorFlashing heq
        simp [handleWrongAnswer, handleCorrectAnswer, closeOverlay] at this
        split_ifs at this <;> simp_all
      · intro hc
        exact handleSubmit_of_correct s hfl hne hc
    · intro hw
      refine ⟨handleSubmit_of_wrong s hfl hne hw, ?_⟩
      rw [handleSubmit_of_wrong s hfl hne hw]
      rfl
  · unfold handleCorrectAnswer closeOverlay
    split_ifs <;> simp_all
  · rfl
  · rfl

/-- Witness for `c6_countegg_submit`: with the default expected answer "4",
typing "4" and submitting takes the success path, and typing "5" and
submitting takes the failure path. -/
theorem c6_countegg_submit_witness :
    handleSubmit (handleKeyPress (openOverlay (create [])) "4")
      = handleCorrectAnswer (handleKeyPress (openOverlay (create [])) "4") ∧
    handleSubmit (handleKeyPress (openOverlay (create [])) "5")
      = handleWrongAnswer (handleKeyPress (openOverlay (create [])) "5") := by
  constructor
  · exact ((c6_countegg_submit _).2.2.1 rfl (by decide)).1.mpr (by decide)
  · exact (((c6_countegg_submit _).2.2.1 rfl (by decide)).2 (by decide)).1

/-- Counterexample to C7 as stated: the claim says the input remains
editable throughout the 600 ms flash (a keypad press during the flash still
modifies the input value).  In the code `handleKeyPress` returns
immediately while `isErrorFlashing` is set, so after submitting the wrong
answer "5" (expected "4"), pressing "1" during the flash changes nothing:
the input stays "5" instead of becoming "51". -/
theorem c7_countegg_flash_counterexample :
    (handleSubmit (handleKeyPress (openOverlay (create [])) "5")).isErrorFlashing
      = true ∧
    handleKeyPress
        (handleSubmit (handleKeyPress (openOverlay (create [])) "5")) "1"
      = handleSubmit (handleKeyPress (openOverlay (create [])) "5") ∧
    (handleKeyPress
        (handleSubmit (handleKeyPress (openOverlay (create [])) "5")) "1").inputValue
      = "5" := by
  refine ⟨by decide, by decide, by decide⟩

/-- C7 amended: after a wrong submission the error indicator is applied to
the input field and cleared automatically when the fixed
`ERROR_FLASH_DURATION` = 600 ms timer fires; the failure path does not
modify the input value; but the input is NOT editable during the flash —
every keypad press during the 600 ms flash is ignored (no state change),
and editing only works again once the flash has cleared. -/
theorem c7_countegg_flash (s : State) (hfl : s.isErrorFlashing = false)
    (hne : s.inputValue ≠ "") (hw : s.inputValue ≠ s.correctAnswer) :
    ERROR_FLASH_DURATION = 600 ∧
    (handleSubmit s).inputTinted = true ∧
    (handleSubmit s).isErrorFlashing = true ∧
    (handleSubmit s).flashTimer = true ∧
    (handleSubmit s).inputValue = s.inputValue ∧
    (∀ key, handleKeyPress (handleSubmit s) key = handleSubmit s) ∧
    (flashTimerFire (handleSubmit s)).inputTinted = false ∧
    (flashTimerFire (handleSubmit s)).isErrorFlashing = false := by
  rw [handleSubmit_of_wrong s hfl hne hw]
  refine ⟨rfl, rfl, rfl, rfl, rfl, ?_, rfl, rfl⟩
  intro key
  unfold handleKeyPress
  rw [show (handleWrongAnswer s).isErrorFlashing = true from rfl]
  simp

/-- Witness for `c7_countegg_flash` on the concrete wrong submission of "5"
against the default answer "4". -/
theorem c7_countegg_flash_witness :
    (handleSubmit (handleKeyPress (openOverlay (create [])) "5")).inputValue
      = (handleKeyPress (openOverlay (create [])) "5").inputValue ∧
    (flashTimerFire
        (handleSubmit (handleKeyPress (openOverlay (create [])) "5"))).isErrorFlashing
      = false := by
  have h := c7_countegg_flash (handleKeyPress (openOverlay (create [])) "5")
    rfl (by decide) (by decide)
  exact ⟨h.2.2.2.2.1, h.2.2.2.2.2.2.2⟩

/-- Counterexample to C8 as stated: the claim says a malformed (e.g.
non-numeric) `total_egg` query parameter falls back to the default answer
"4".  The code's fallback is JavaScript `||`, which only catches absent or
empty values: with `total_egg=abc` the expected answer becomes "abc", not
"4". -/
theorem c8_countegg_default_counterexample :
    (create [("total_egg", "abc")]).correctAnswer = "abc" ∧
    (create [("total_egg", "abc")]).correctAnswer ≠ DEFAULT_CORRECT_ANSWER := by
  refine ⟨by decide, by decide⟩

/-- C8 amended: the expected answer is set once at scene start from the
`total_egg` query parameter; when the parameter is absent or its value is
the empty string, the expected answer equals the hard-coded default "4";
but any other present value — including a malformed, non-numeric string —
is used verbatim. -/
theorem c8_countegg_default (params : List (String × String)) :
    DEFAULT_CORRECT_ANSWER = "4" ∧
    (create params).correctAnswer = correctAnswerFromParams params ∧
    (getQueryParam params "total_egg" = none →
      correctAnswerFromParams params = DEFAULT_CORRECT_ANSWER) ∧
    (getQueryParam params "total_egg" = some "" →
      correctAnswerFromParams params = DEFAULT_CORRECT_ANSWER) ∧
    (∀ v, getQueryParam params "total_egg" = some v → v ≠ "" →
      correctAnswerFromParams params = v) := by
  refine ⟨rfl, rfl, ?_, ?_, ?_⟩
  · intro h
    unfold correctAnswerFromParams
    rw [h]
  · intro h
    unfold correctAnswerFromParams
    rw [h]
    simp
  · intro v h hv
    unfold correctAnswerFromParams
    rw [h]
    simp [hv]

/-- Witness for `c8_countegg_default`: with no query parameters at all the
expected answer is the default "4". -/
theorem c8_countegg_default_witness :
    correctAnswerFromParams [] = DEFAULT_CORRECT_ANSWER :=
  (c8_countegg_default []).2.2.1 rfl

end CountEgg

namespace UIM

theorem showPopup_of_none (s : State) (h : s.active = none) :
    showPopup s =
      { active := some s.nextId, live := s.live ++ [s.nextId],
        fading := s.fading, nextId := s.nextId + 1 } := by
  unfold showPopup
  rw [h]

theorem showPopup_of_active (s : State) (p : Nat) (h : s.active = some p) :
    showPopup s =
      { active := some s.nextId, live := s.live.erase p ++ [s.nextId],
        fading := s.fading, nextId := s.nextId + 1 } := by
  unfold showPopup
  rw [h]

theorem dismissPopup_of_active (s : State) (p : Nat) (h : s.active = some p) :
    dismissPopup s =
      { active := none, live := s.live, fading := s.fading ++ [p],
        nextId := s.nextId } := by
  unfold dismissPopup
  rw [h]

theorem popupInv_init : PopupInv initState := by
  refine ⟨?_, ?_, ?_, ?_⟩ <;> simp [initState]

theorem popupInv_step (s : State) (e : Event) (h : PopupInv s) :
    PopupInv (step s e) := by
  obtain ⟨hlive, hfade, hnd, hact⟩ := h
  cases e with
  | showEv =>
    show PopupInv (showPopup s)
    cases ha : s.active with
    | none =>
      rw [showPopup_of_none s ha]
      refine ⟨?_, ?_, ?_, ?_⟩ <;> dsimp only
      · intro q hq
        rcases List.mem_append.mp hq with hq | hq
        · exact Nat.lt_succ_of_lt (hlive q hq)
        · simp at hq
          omega
      · intro q hq
        exact Nat.lt_succ_of_lt (hfade q hq)
      · refine List.Nodup.append hnd (List.nodup_singleton _) ?_
        intro q hq hq2
        simp at hq2
        exact absurd (hlive q hq) (by omega)
      · intro p hp
        simp at hp
        subst hp
        refine ⟨List.mem_append.mpr (Or.inr (by simp)), ?_⟩
        intro hmem
        exact absurd (hfade _ hmem) (by omega)
    | some p =>
      rw [showPopup_of_active s p ha]
      refine ⟨?_, ?_, ?_, ?_⟩ <;> dsimp only
      · intro q hq
        rcases List.mem_append.mp hq with hq | hq
        · exact Nat.lt_succ_of_lt (hlive q (List.mem_of_mem_erase hq))
        · simp at hq
          omega
      · intro q hq
        exact Nat.lt_succ_of_lt (hfade q hq)
      · refine List.Nodup.append (hnd.erase p) (List.nodup_singleton _) ?_
        intro q hq hq2
        simp at hq2
        exact absurd (hlive q (List.mem_of_mem_erase hq)) (by omega)
      · intro r hr
        simp at hr
        subst hr
        refine ⟨List.mem_append.mpr (Or.inr (by simp)), ?_⟩
        intro hmem
        exact absurd (hfade _ hmem) (by omega)
  | dismissEv =>
    show PopupInv (dismissPopup s)
    cases ha : s.active with
    | none =>
      unfold dismissPopup
      rw [ha]
      exact ⟨hlive, hfade, hnd, hact⟩
    | some p =>
      rw [dismissPopup_of_active s p ha]
      refine ⟨hlive, ?_, hnd, ?_⟩ <;> dsimp only
      · intro q hq
        rcases List.mem_append.mp hq with hq | hq
        · exact hfade q hq
        · simp at hq
          have hpn : p < s.nextId := hlive p ((hact p ha).1)
          omega
      · intro r hr
        simp at hr
  | fadeEv p =>
    show PopupInv (fadeDone s p)
    unfold fadeDone
    split_ifs with hp
    · refine ⟨?_, ?_, hnd.erase p, ?_⟩
      · intro q hq
        exact hlive q (List.mem_of_mem_erase hq)
      · intro q hq
        exact hfade q (List.mem_of_mem_erase hq)
      · intro r hr
        obtain ⟨hr1, hr2⟩ := hact r hr
        have hrp : r ≠ p := fun h => hr2 (h ▸ hp)
        refine ⟨?_, ?_⟩
        · exact (List.mem_erase_of_ne hrp).mpr hr1
        · intro hmem
          exact hr2 (List.mem_of_mem_erase hmem)
    · exact ⟨hlive, hfade, hnd, hact⟩

theorem popupInv_reachable (s : State) (hs : Reachable s) : PopupInv s := by
  induction hs with
  | init => exact popupInv_init
  | step hs e ih => exact popupInv_step _ e ih

/-- C10: at most one popup is installed at any time per scene — `active` is
a single nullable slot, so two installed popups coincide; `showPopup`
destroys the currently active popup (it is no longer among the live
containers and is not the installed one afterwards) before installing the
freshly created one; `dismissPopup` with no active popup is a no-op; and
`hasActivePopup` returns true exactly when a popup is installed. -/
theorem c10_uimanager_popup (s : State) (hs : Reachable s) :
    (∀ p q, s.active = some p → s.active = some q → p = q) ∧
    (∀ p, s.active = some p →
      p ∉ (showPopup s).live ∧
      (showPopup s).active = some s.nextId ∧
      (showPopup s).active ≠ some p) ∧
    (s.active = none → dismissPopup s = s) ∧
    (hasActivePopup s = true ↔ s.active ≠ none) ∧
    (hasActivePopup s = false ↔ s.active = none) := by
  obtain ⟨hlive, hfade, hnd, hact⟩ := popupInv_reachable s hs
  refine ⟨?_, ?_, ?_, ?_, ?_⟩
  · intro p q hp hq
    rw [hp] at hq
    exact Option.some_inj.mp hq
  · intro p hp
    have hpl : p ∈ s.live := (hact p hp).1
    have hpn : p < s.nextId := hlive p hpl
    rw [showPopup_of_active s p hp]
    refine ⟨?_, rfl, ?_⟩
    · intro hmem
      rcases List.mem_append.mp hmem with hmem | hmem
      · exact (hnd.not_mem_erase) hmem
      · simp at hmem
        omega
    · intro h
      have := Option.some_inj.mp h
      omega
  · intro h
    unfold dismissPopup
    rw [h]
  · unfold hasActivePopup
    cases s.active <;> simp
  · unfold hasActivePopup
    cases s.active <;> simp

/-- Witness for `c10_uimanager_popup` at the reachable state with one shown
popup: showing a second popup destroys popup 0 and installs popup 1, and
`hasActivePopup` is true while popup 0 is installed. -/
theorem c10_uimanager_popup_witness :
    (0 ∉ (showPopup (showPopup initState)).live ∧
      (showPopup (showPopup initState)).active = some (showPopup initState).nextId ∧
      (showPopup (showPopup initState)).active ≠ some 0) ∧
    hasActivePopup (showPopup initState) = true := by
  have h := c10_uimanager_popup (showPopup initState)
    (Reachable.step Reachable.init Event.showEv)
  exact ⟨h.2.1 0 rfl, h.2.2.2.1.mpr (by decide)⟩

end UIM

namespace MatchPenguin

theorem handleDragStart_not_idle (s : State) (b : Nat)
    (h : s.matchState ≠ MatchState.Idle) : handleDragStart s b = s := by
  unfold handleDragStart
  cases hb : s.babies.get? b with
  | none => rfl
  | some baby =>
    dsimp only
    by_cases hi : baby.interactive = false
    · rw [if_pos hi]
    · rw [if_neg hi, if_pos h]

theorem step_activeParentIndex (s : State) (e : Event) :
    (step s e).activeParentIndex =
      (if e = Event.animDoneEv ∧ s.pending = some Anim.matchOut
       then s.activeParentIndex + 1 else s.activeParentIndex) := by
  cases e with
  | dragStart b =>
    simp only [step]
    rw [if_neg (by simp)]
    unfold handleDragStart
    cases hb : s.babies.get? b with
    | none => rfl
    | some baby =>
      dsimp only
      split_ifs <;> rfl
  | pointerUp overDrop =>
    simp only [step]
    rw [if_neg (by simp)]
    unfold onPointerUp
    cases hd : s.activeDrag with
    | none => rfl
    | some b =>
      dsimp only
      by_cases hap : s.activeParent = false
      · rw [if_pos hap]
      · rw [if_neg hap]
        cases hb : s.babies.get? b with
        | none => cases hq : s.parentQueue.get? s.activeParentIndex <;> rfl
        | some baby =>
          cases hq : s.parentQueue.get? s.activeParentIndex with
          | none => rfl
          | some target =>
            dsimp only
            split_ifs with h1 h2
            · unfold handleCorrectMatch
              split_ifs
              · rfl
            · rfl
            · rfl
  | animDoneEv =>
    simp only [step]
    cases hp : s.pending with
    | none => simp [hp]
    | some a =>
      cases a with
      | slideIn => simp [hp]
      | matchOut =>
        simp only [hp, and_true, if_pos rfl]
        unfold spawnNextParent
        split_ifs <;> rfl

/-- C5: in the sequential matching controller, a drag-start made while the
state is not Idle — in particular while Animating — is ignored silently:
the state (including the feedback-toast log) is completely unchanged.  The
active target index is monotonically non-decreasing under every event, and
it advances by exactly one precisely on the completion of a correct match's
animation chain (the transition scheduled by `handleCorrectMatch`) and on
no other event. -/
theorem c5_matching_guards (s : State) :
    (∀ b, s.matchState ≠ MatchState.Idle → step s (.dragStart b) = s) ∧
    (∀ e, s.activeParentIndex ≤ (step s e).activeParentIndex) ∧
    (∀ e, (step s e).activeParentIndex =
      (if e = Event.animDoneEv ∧ s.pending = some Anim.matchOut
       then s.activeParentIndex + 1 else s.activeParentIndex)) := by
  refine ⟨?_, ?_, step_activeParentIndex s⟩
  · intro b h
    exact handleDragStart_not_idle s b h
  · intro e
    rw [step_activeParentIndex s e]
    split <;> omega

/-- Witness for `c5_matching_guards` at the freshly created scene (state
Animating while the first parent slides in): a drag-start is silently
ignored, and the index does not decrease on the slide-in completion. -/
theorem c5_matching_guards_witness :
    step (create [.a, .b, .c] [.b, .c, .a]) (.dragStart 0)
        = create [.a, .b, .c] [.b, .c, .a] ∧
    (create [.a, .b, .c] [.b, .c, .a]).activeParentIndex
        ≤ (step (create [.a, .b, .c] [.b, .c, .a]) .animDoneEv).activeParentIndex := by
  have h := c5_matching_guards (create [.a, .b, .c] [.b, .c, .a])
  exact ⟨h.1 0 (by decide), h.2.1 .animDoneEv⟩

end MatchPenguin

namespace CatchFish

theorem list_set_self {α : Type} (l : List α) (i : Nat) (a : α)
    (h : l[i]? = some a) : l.set i a = l := by
  induction l generalizing i with
  | nil => rfl
  | cons x xs ih =>
    cases i with
    | zero =>
      simp at h
      rw [h]
      rfl
    | succ n =>
      simp only [List.set]
      have hx : xs[n]? = some a := by simpa using h
      rw [ih n hx]

theorem inv_init : Inv initState := by
  refine ⟨by decide, ?_, ?_, ?_, ?_, ?_⟩ <;> simp [initState, TARGET_CATCH]

theorem markPendingDestroy_fields (s : State) (i : Nat) :
    (markPendingDestroy s i).caughtCount = s.caughtCount ∧
    (markPendingDestroy s i).isGameOver = s.isGameOver ∧
    (markPendingDestroy s i).spawnScheduled = s.spawnScheduled ∧
    (markPendingDestroy s i).activeFish = s.activeFish ∧
    (markPendingDestroy s i).fishes.length = s.fishes.length := by
  unfold markPendingDestroy
  cases h : s.fishes[i]? with
  | none => exact ⟨rfl, rfl, rfl, rfl, rfl⟩
  | some f =>
    dsimp only
    split_ifs
    · exact ⟨rfl, rfl, rfl, rfl, rfl⟩
    · exact ⟨rfl, rfl, rfl, rfl, List.length_set s.fishes i _⟩

theorem markPendingDestroy_getElem_ne (s : State) (i j : Nat) (h : i ≠ j) :
    (markPendingDestroy s i).fishes[j]? = s.fishes[j]? := by
  unfold markPendingDestroy
  cases hh : s.fishes[i]? with
  | none => rfl
  | some f =>
    dsimp only
    split_ifs
    · rfl
    · exact List.getElem?_set_ne h

theorem foldl_markPD_fields (js : List Nat) (s : State) :
    ((js.foldl markPendingDestroy s).caughtCount = s.caughtCount ∧
     (js.foldl markPendingDestroy s).isGameOver = s.isGameOver ∧
     (js.foldl markPendingDestroy s).spawnScheduled = s.spawnScheduled ∧
     (js.foldl markPendingDestroy s).activeFish = s.activeFish ∧
     (js.foldl markPendingDestroy s).fishes.length = s.fishes.length) := by
  induction js generalizing s with
  | nil => exact ⟨rfl, rfl, rfl, rfl, rfl⟩
  | cons j js ih =>
    have h1 := markPendingDestroy_fields s j
    have h2 := ih (markPendingDestroy s j)
    rw [List.foldl_cons]
    exact ⟨h2.1.trans h1.1, h2.2.1.trans h1.2.1, h2.2.2.1.trans h1.2.2.1,
      h2.2.2.2.1.trans h1.2.2.2.1, h2.2.2.2.2.trans h1.2.2.2.2⟩

theorem foldl_markPD_getElem_notin (js : List Nat) (s : State) (i : Nat)
    (h : i ∉ js) :
    (js.foldl markPendingDestroy s).fishes[i]? = s.fishes[i]? := by
  induction js generalizing s with
  | nil => rfl
  | cons j js ih =>
    have hij : j ≠ i := fun hh => h (hh ▸ List.mem_cons_self j js)
    have hnotin : i ∉ js := fun hh => h (List.mem_cons_of_mem j hh)
    rw [List.foldl_cons, ih _ hnotin, markPendingDestroy_getElem_ne s j i hij]

theorem handleWin_fields (s : State) :
    (handleWin s).caughtCount = s.caughtCount ∧
    (handleWin s).isGameOver = true ∧
    (handleWin s).spawnScheduled = false ∧
    (handleWin s).activeFish = [] := by
  unfold handleWin
  dsimp only
  have h := foldl_markPD_fields s.activeFish
    { s with isGameOver := true, spawnScheduled := false }
  exact ⟨h.1, h.2.1, h.2.2.1, rfl⟩

theorem handleWin_getElem_notin (s : State) (i : Nat) (h : i ∉ s.activeFish) :
    (handleWin s).fishes[i]? = s.fishes[i]? := by
  unfold handleWin
  dsimp only
  exact foldl_markPD_getElem_notin s.activeFish
    { s with isGameOver := true, spawnScheduled := false } i h

theorem spawnFish_of_gameOver (s : State) (offs : List (Int × Int))
    (h : s.isGameOver = true) : spawnFish s offs = s := by
  unfold spawnFish
  rw [if_pos h]

theorem spawnFish_of_none (s : State) (offs : List (Int × Int))
    (h : findPlacement s offs = none) : spawnFish s offs = s := by
  unfold spawnFish
  split_ifs with h1
  · rfl
  · rw [h]

theorem spawnFish_of_some (s : State) (offs : List (Int × Int))
    (off : Int × Int) (hg : s.isGameOver = false)
    (h : findPlacement s offs = some off) :
    spawnFish s offs =
      { s with
        fishes := s.fishes ++
          [{ x := (candidatePos off).1, y := (candidatePos off).2,
             destroyed := false, interactive := true, pendingDestroy := false }],
        activeFish := s.activeFish ++ [s.fishes.length] } := by
  unfold spawnFish
  rw [if_neg (by simp [hg]), h]

theorem escapeFish_eq (s : State) (i : Nat) (f : Fish)
    (hf : s.fishes[i]? = some f) (hd : f.destroyed = false) :
    escapeFish s i =
      removeFishFromActive
        (setFish s i { f with interactive := false, pendingDestroy := true }) i := by
  unfold escapeFish
  rw [hf]
  dsimp only
  rw [if_neg (by simp [hd])]

theorem catchFish_eq_small (s : State) (i : Nat) (f : Fish)
    (hf : s.fishes[i]? = some f) (hd : f.destroyed = false)
    (hg : s.isGameOver = false) (hlt : s.caughtCount + 1 < TARGET_CATCH) :
    catchFish s i =
      { removeFishFromActive
          (setFish s i { f with interactive := false, pendingDestroy := true }) i
        with caughtCount := s.caughtCount + 1 } := by
  unfold catchFish
  rw [hf]
  dsimp only
  rw [if_neg (by simp [hd, hg])]
  dsimp only [removeFishFromActive, setFish]
  rw [if_neg (by omega)]

theorem catchFish_eq_win (s : State) (i : Nat) (f : Fish)
    (hf : s.fishes[i]? = some f) (hd : f.destroyed = false)
    (hg : s.isGameOver = false) (hge : TARGET_CATCH ≤ s.caughtCount + 1) :
    catchFish s i =
      handleWin
        { removeFishFromActive
            (setFish s i { f with interactive := false, pendingDestroy := true }) i
          with caughtCount := s.caughtCount + 1 } := by
  unfold catchFish
  rw [hf]
  dsimp only
  rw [if_neg (by simp [hd, hg])]
  dsimp only [removeFishFromActive, setFish]
  rw [if_pos (by omega)]

theorem catchFish_of_gameOver (s : State) (i : Nat) (hg : s.isGameOver = true) :
    catchFish s i = s := by
  unfold catchFish
  cases hf : s.fishes[i]? with
  | none => rfl
  | some f =>
    dsimp only
    rw [if_pos (by simp [hg])]

theorem inv_core (s : State) (i : Nat) (f : Fish) (h : Inv s)
    (_hf : s.fishes[i]? = some f) :
    Inv (removeFishFromActive
      (setFish s i { f with interactive := false, pendingDestroy := true }) i) := by
  obtain ⟨h1, h2, h3, h4, h5, h6⟩ := h
  refine ⟨h1, h2, ?_, ?_, ?_, ?_⟩
  · exact h3.erase i
  · intro j hj
    have hj' : j ∈ s.activeFish := List.mem_of_mem_erase hj
    have := h4 j hj'
    simp only [removeFishFromActive, setFish, List.length_set]
    exact this
  · intro j hj g hg
    have hj2 := (h3.mem_erase_iff).mp hj
    obtain ⟨hji, hj'⟩ := hj2
    rw [show (removeFishFromActive
        (setFish s i { f with interactive := false, pendingDestroy := true }) i).fishes
      = s.fishes.set i { f with interactive := false, pendingDestroy := true } from rfl]
      at hg
    rw [List.getElem?_set_ne (fun hh => hji (hh.symm)) ] at hg
    exact h5 j hj' g hg
  · intro hover
    obtain ⟨ha, hs⟩ := h6 hover
    constructor
    · show (s.activeFish.erase i) = []
      rw [ha]
      rfl
    · exact hs

theorem inv_step (s : State) (e : Event) (h : Inv s) : Inv (step s e) := by
  cases e with
  | spawnTick offs =>
    show Inv (if s.spawnScheduled = true then
      (if (spawnFish { s with spawnScheduled := false } offs).isGameOver = true
       then spawnFish { s with spawnScheduled := false } offs
       else { spawnFish { s with spawnScheduled := false } offs with
              spawnScheduled := true })
      else s)
    by_cases hsch : s.spawnScheduled = true
    · rw [if_pos hsch]
      have hg : s.isGameOver = false := by
        by_contra hh
        have := (h.over_clear (by simpa using hh)).2
        rw [hsch] at this
        cases this
      have hgA : ({ s with spawnScheduled := false } : State).isGameOver = false := hg
      cases hfp : findPlacement { s with spawnScheduled := false } offs with
      | none =>
        rw [spawnFish_of_none _ _ hfp]
        rw [if_neg (by simp [hg])]
        obtain ⟨h1, h2, h3, h4, h5, h6⟩ := h
        exact ⟨h1, h2, h3, h4, h5, fun hov => by rw [hg] at hov; cases hov⟩
      | some off =>
        rw [spawnFish_of_some _ _ off hgA hfp]
        rw [if_neg (by simp [hg])]
        obtain ⟨h1, h2, h3, h4, h5, h6⟩ := h
        refine ⟨h1, h2, ?_, ?_, ?_, ?_⟩
        · refine List.Nodup.append h3 (List.nodup_singleton _) ?_
          intro q hq hq2
          simp at hq2
          exact absurd (h4 q hq) (by omega)
        · intro j hj
          rcases List.mem_append.mp hj with hj | hj
          · have := h4 j hj
            simp only [List.length_append, List.length_cons, List.length_nil]
            omega
          · simp at hj
            simp only [List.length_append, List.length_cons, List.length_nil]
            omega
        · intro j hj g hg2
          rcases List.mem_append.mp hj with hj | hj
          · have hlt := h4 j hj
            rw [show ({ s with spawnScheduled := false } : State).fishes = s.fishes
              from rfl] at hg2
            rw [List.getElem?_append_left hlt] at hg2
            exact h5 j hj g hg2
          · simp at hj
            subst hj
            rw [show ({ s with spawnScheduled := false } : State).fishes = s.fishes
              from rfl] at hg2
            simp at hg2
            rw [← hg2]
            exact ⟨rfl, rfl, rfl⟩
        · intro hov
          rw [show ({ s with spawnScheduled := false } : State).isGameOver
            = s.isGameOver from rfl] at hov
          rw [hg] at hov
          cases hov
    · rw [if_neg hsch]
      exact h
  | tap i =>
    show Inv (match s.fishes[i]? with
      | none => s
      | some f =>
        if f.interactive = true ∧ f.destroyed = false then catchFish s i else s)
    cases hf : s.fishes[i]? with
    | none => exact h
    | some f =>
      dsimp only
      split_ifs with hcond
      · by_cases hg : s.isGameOver = true
        · rw [catchFish_of_gameOver s i hg]
          exact h
        · have hg' : s.isGameOver = false := by simpa using hg
          have hd : f.destroyed = false := hcond.2
          have hne10 : s.caughtCount ≠ TARGET_CATCH := by
            intro hh
            rw [h.over_iff.mpr hh] at hg'
            cases hg'
          have hlt10 : s.caughtCount < TARGET_CATCH :=
            lt_of_le_of_ne h.caught_le hne10
          by_cases hwin : TARGET_CATCH ≤ s.caughtCount + 1
          · rw [catchFish_eq_win s i f hf hd hg' hwin]
            obtain ⟨w1, w2, w3, w4⟩ := handleWin_fields
              { removeFishFromActive
                  (setFish s i { f with interactive := false, pendingDestroy := true }) i
                with caughtCount := s.caughtCount + 1 }
            refine ⟨?_, ?_, ?_, ?_, ?_, ?_⟩
            · rw [w1]
              show s.caughtCount + 1 ≤ TARGET_CATCH
              omega
            · rw [w2, w1]
              show true = true ↔ s.caughtCount + 1 = TARGET_CATCH
              constructor
              · intro _
                omega
              · intro _
                rfl
            · rw [w4]
              exact List.nodup_nil
            · intro j hj
              rw [w4] at hj
              cases hj
            · intro j hj
              rw [w4] at hj
              cases hj
            · intro _
              exact ⟨w4, w3⟩
          · have hlt : s.caughtCount + 1 < TARGET_CATCH := by omega
            rw [catchFish_eq_small s i f hf hd hg' hlt]
            have hcore := inv_core s i f h hf
            obtain ⟨c1, c2, c3, c4, c5, c6⟩ := hcore
            refine ⟨?_, ?_, c3, c4, c5, ?_⟩
            · show s.caughtCount + 1 ≤ TARGET_CATCH
              omega
            · show s.isGameOver = true ↔ s.caughtCount + 1 = TARGET_CATCH
              rw [hg']
              constructor
              · intro hh
                cases hh
              · intro hh
                omega
            · intro hov
              exact c6 hov
      · exact h
  | expire i =>
    show Inv (match s.fishes[i]? with
      | none => s
      | some f => if f.destroyed = false then escapeFish s i else s)
    cases hf : s.fishes[i]? with
    | none => exact h
    | some f =>
      dsimp only
      split_ifs with hd
      · rw [escapeFish_eq s i f hf hd]
        exact inv_core s i f h hf
      · exact h
  | destroyDone i =>
    show Inv (match s.fishes[i]? with
      | none => s
      | some f =>
        if f.pendingDestroy = true ∧ f.destroyed = false then
          setFish s i { f with destroyed := true }
        else s)
    cases hf : s.fishes[i]? with
    | none => exact h
    | some f =>
      dsimp only
      split_ifs with hcond
      · obtain ⟨h1, h2, h3, h4, h5, h6⟩ := h
        refine ⟨h1, h2, h3, ?_, ?_, h6⟩
        · intro j hj
          have := h4 j hj
          simp only [setFish, List.length_set]
          exact this
        · intro j hj g hg
          have hji : j ≠ i := by
            intro hh
            subst hh
            have := (h5 j hj f hf).2.2
            rw [hcond.1] at this
            cases this
          rw [show (setFish s i { f with destroyed := true }).fishes
            = s.fishes.set i { f with destroyed := true } from rfl] at hg
          rw [List.getElem?_set_ne (fun hh => hji hh.symm)] at hg
          exact h5 j hj g hg
      · exact h

theorem inv_reachable (s : State) (hs : Reachable s) : Inv s := by
  induction hs with
  | refl => exact inv_init
  | step h e ih => exact inv_step _ e ih

theorem gone_lt (s : State) (i : Nat) (h : Gone s i) : i < s.fishes.length := by
  obtain ⟨f, hf, _, _, _⟩ := h
  exact (List.getElem?_eq_some.mp hf).1

theorem catchFish_gone (s : State) (j i : Nat) (hij : i ≠ j) (h : Gone s i) :
    Gone (catchFish s j) i := by
  obtain ⟨f, hf, hi, hp, hm⟩ := h
  unfold catchFish
  cases hfj : s.fishes[j]? with
  | none => exact ⟨f, hf, hi, hp, hm⟩
  | some g =>
    dsimp only
    have hmem2 : i ∉ s.activeFish.erase j :=
      fun hh => hm (List.mem_of_mem_erase hh)
    have hgetm : (s.fishes.set j
        { g with interactive := false, pendingDestroy := true })[i]? = some f := by
      rw [List.getElem?_set_ne (fun hh => hij hh.symm)]
      exact hf
    split_ifs with hguard hwin
    · exact ⟨f, hf, hi, hp, hm⟩
    · refine ⟨f, ?_, hi, hp, ?_⟩
      · rw [handleWin_getElem_notin _ i hmem2]
        exact hgetm
      · rw [(handleWin_fields _).2.2.2]
        simp
    · exact ⟨f, hgetm, hi, hp, hmem2⟩

theorem escapeFish_gone (s : State) (j i : Nat) (h : Gone s i) :
    Gone (escapeFish s j) i := by
  obtain ⟨f, hf, hi, hp, hm⟩ := h
  unfold escapeFish
  cases hfj : s.fishes[j]? with
  | none => exact ⟨f, hf, hi, hp, hm⟩
  | some g =>
    dsimp only
    split_ifs with hguard
    · exact ⟨f, hf, hi, hp, hm⟩
    · have hmem2 : i ∉ s.activeFish.erase j :=
        fun hh => hm (List.mem_of_mem_erase hh)
      by_cases hij : i = j
      · subst hij
        have hfg : g = f := by
          rw [hf] at hfj
          exact (Option.some_inj.mp hfj).symm
        subst hfg
        refine ⟨{ g with interactive := false, pendingDestroy := true }, ?_, rfl, rfl, hmem2⟩
        exact List.getElem?_set_eq_of_lt _ (List.getElem?_eq_some.mp hf).1
      · refine ⟨f, ?_, hi, hp, hmem2⟩
        show (s.fishes.set j _)[i]? = some f
        rw [List.getElem?_set_ne (fun hh => hij hh.symm)]
        exact hf

theorem gone_step (s : State) (e : Event) (i : Nat) (h : Gone s i) :
    Gone (step s e) i := by
  obtain ⟨f, hf, hi, hp, hm⟩ := h
  cases e with
  | spawnTick offs =>
    show Gone (if s.spawnScheduled = true then
      (if (spawnFish { s with spawnScheduled := false } offs).isGameOver = true
       then spawnFish { s with spawnScheduled := false } offs
       else { spawnFish { s with spawnScheduled := false } offs with
              spawnScheduled := true }) else s) i
    by_cases hsch : s.spawnScheduled = true
    · rw [if_pos hsch]
      have hlen : i < s.fishes.length := (List.getElem?_eq_some.mp hf).1
      by_cases hg : ({ s with spawnScheduled := false } : State).isGameOver = true
      · rw [spawnFish_of_gameOver _ _ hg]
        rw [if_pos hg]
        exact ⟨f, hf, hi, hp, hm⟩
      · have hg' : ({ s with spawnScheduled := false } : State).isGameOver = false := by
          simpa using hg
        have hgs : s.isGameOver = false := hg'
        cases hfp : findPlacement { s with spawnScheduled := false } offs with
        | none =>
          rw [spawnFish_of_none _ _ hfp]
          rw [if_neg (by simp [hgs])]
          exact ⟨f, hf, hi, hp, hm⟩
        | some off =>
          rw [spawnFish_of_some _ _ off hg' hfp]
          rw [if_neg (by simp [hgs])]
          refine ⟨f, ?_, hi, hp, ?_⟩
          · show (s.fishes ++ [_])[i]? = some f
            rw [List.getElem?_append_left hlen]
            exact hf
          · intro hh
            rcases List.mem_append.mp hh with hh | hh
            · exact hm hh
            · simp at hh
              omega
    · rw [if_neg hsch]
      exact ⟨f, hf, hi, hp, hm⟩
  | tap j =>
    show Gone (match s.fishes[j]? with
      | none => s
      | some g =>
        if g.interactive = true ∧ g.destroyed = false then catchFish s j else s) i
    cases hfj : s.fishes[j]? with
    | none => exact ⟨f, hf, hi, hp, hm⟩
    | some g =>
      dsimp only
      split_ifs with hcond
      · by_cases hij : i = j
        · subst hij
          rw [hf] at hfj
          have : g = f := (Option.some_inj.mp hfj).symm
          subst this
          rw [hi] at hcond
          cases hcond.1
        · exact catchFish_gone s j i hij ⟨f, hf, hi, hp, hm⟩
      · exact ⟨f, hf, hi, hp, hm⟩
  | expire j =>
    show Gone (match s.fishes[j]? with
      | none => s
      | some g => if g.destroyed = false then escapeFish s j else s) i
    cases hfj : s.fishes[j]? with
    | none => exact ⟨f, hf, hi, hp, hm⟩
    | some g =>
      dsimp only
      split_ifs with hcond
      · exact escapeFish_gone s j i ⟨f, hf, hi, hp, hm⟩
      · exact ⟨f, hf, hi, hp, hm⟩
  | destroyDone j =>
    show Gone (match s.fishes[j]? with
      | none => s
      | some g =>
        if g.pendingDestroy = true ∧ g.destroyed = false then
          setFish s j { g with destroyed := true }
        else s) i
    cases hfj : s.fishes[j]? with
    | none => exact ⟨f, hf, hi, hp, hm⟩
    | some g =>
      dsimp only
      split_ifs with hcond
      · by_cases hij : i = j
        · subst hij
          rw [hf] at hfj
          have : g = f := (Option.some_inj.mp hfj).symm
          subst this
          refine ⟨{ g with destroyed := true }, ?_, hi, hp, hm⟩
          exact List.getElem?_set_eq_of_lt _ (List.getElem?_eq_some.mp hf).1
        · refine ⟨f, ?_, hi, hp, hm⟩
          show (s.fishes.set j _)[i]? = some f
          rw [List.getElem?_set_ne (fun hh => hij hh.symm)]
          exact hf
      · exact ⟨f, hf, hi, hp, hm⟩

theorem gone_reachFrom (t u : State) (h : ReachFrom t u) (i : Nat)
    (hg : Gone t i) : Gone u i := by
  induction h with
  | refl => exact hg
  | step h e ih => exact gone_step _ e i ih

theorem tap_noop_of_gone (s : State) (i : Nat) (h : Gone s i) :
    step s (.tap i) = s := by
  obtain ⟨f, hf, hi, hp, hm⟩ := h
  show (match s.fishes[i]? with
    | none => s
    | some g =>
      if g.interactive = true ∧ g.destroyed = false then catchFish s i else s) = s
  rw [hf]
  dsimp only
  rw [if_neg (by simp [hi])]

theorem expire_noop_of_gone (s : State) (i : Nat) (h : Gone s i) :
    step s (.expire i) = s := by
  obtain ⟨f, hf, hi, hp, hm⟩ := h
  show (match s.fishes[i]? with
    | none => s
    | some g => if g.destroyed = false then escapeFish s i else s) = s
  rw [hf]
  dsimp only
  by_cases hd : f.destroyed = true
  · rw [if_neg (by simp [hd])]
  · have hd' : f.destroyed = false := by simpa using hd
    rw [if_pos hd']
    unfold escapeFish
    rw [hf]
    dsimp only
    rw [if_neg (by simp [hd'])]
    have hff : { f with interactive := false, pendingDestroy := true } = f := by
      cases f
      simp_all
    rw [hff]
    unfold setFish
    rw [list_set_self s.fishes i f hf]
    unfold removeFishFromActive
    rw [List.erase_of_not_mem hm]

theorem gone_of_tap_changed (s : State) (i : Nat) (hInv : Inv s)
    (h : step s (.tap i) ≠ s) : Gone (step s (.tap i)) i := by
  revert h
  show (match s.fishes[i]? with
    | none => s
    | some g =>
      if g.interactive = true ∧ g.destroyed = false then catchFish s i else s) ≠ s →
    Gone (match s.fishes[i]? with
      | none => s
      | some g =>
        if g.interactive = true ∧ g.destroyed = false then catchFish s i else s) i
  cases hf : s.fishes[i]? with
  | none => intro h; exact absurd rfl h
  | some f =>
    dsimp only
    split_ifs with hcond
    · intro h
      by_cases hg : s.isGameOver = true
      · rw [catchFish_of_gameOver s i hg] at h ⊢
        exact absurd rfl h
      · have hg' : s.isGameOver = false := by simpa using hg
        have hd : f.destroyed = false := hcond.2
        have hlen : i < s.fishes.length := (List.getElem?_eq_some.mp hf).1
        have hmem2 : i ∉ s.activeFish.erase i := hInv.nodup.not_mem_erase
        have hgetm : (s.fishes.set i
            { f with interactive := false, pendingDestroy := true })[i]?
            = some { f with interactive := false, pendingDestroy := true } :=
          List.getElem?_set_eq_of_lt _ hlen
        by_cases hwin : TARGET_CATCH ≤ s.caughtCount + 1
        · rw [catchFish_eq_win s i f hf hd hg' hwin]
          refine ⟨{ f with interactive := false, pendingDestroy := true }, ?_, rfl, rfl, ?_⟩
          · rw [handleWin_getElem_notin _ i hmem2]
            exact hgetm
          · rw [(handleWin_fields _).2.2.2]
            simp
        · have hlt : s.caughtCount + 1 < TARGET_CATCH := by omega
          rw [catchFish_eq_small s i f hf hd hg' hlt]
          exact ⟨{ f with interactive := false, pendingDestroy := true },
            hgetm, rfl, rfl, hmem2⟩
    · intro h
      exact absurd rfl h

theorem gone_of_expire_changed (s : State) (i : Nat) (hInv : Inv s)
    (h : step s (.expire i) ≠ s) : Gone (step s (.expire i)) i := by
  revert h
  show (match s.fishes[i]? with
    | none => s
    | some g => if g.destroyed = false then escapeFish s i else s) ≠ s →
    Gone (match s.fishes[i]? with
      | none => s
      | some g => if g.destroyed = false then escapeFish s i else s) i
  cases hf : s.fishes[i]? with
  | none => intro h; exact absurd rfl h
  | some f =>
    dsimp only
    split_ifs with hd
    · intro h
      rw [escapeFish_eq s i f hf hd]
      have hlen : i < s.fishes.length := (List.getElem?_eq_some.mp hf).1
      exact ⟨{ f with interactive := false, pendingDestroy := true },
        List.getElem?_set_eq_of_lt _ hlen, rfl, rfl, hInv.nodup.not_mem_erase⟩
    · intro h
      exact absurd rfl h

/-- C1: in the catch-fish controller every spawned fish reaches at most one
terminal transition — caught XOR escaped, never both.  If the tap-catch has
occurred (a `tap i` event actually changed the state), then in every later
state both the lifetime-expiry callback and any further tap on that fish
are exact no-ops (the state, counter included, is unchanged); symmetrically
if expiry has occurred first, any later tap or duplicate expiry on that
fish is an exact no-op.  The loser transition is neutralised by the
"still active" guards: the expiry callback's `fish.active` check, the
`catchFish` guard, and the disabled interactivity of a resolved fish. -/
theorem c1_catchfish_terminal (s : State) (hs : Reachable s) (i : Nat) :
    (step s (.tap i) ≠ s →
      ∀ t, ReachFrom (step s (.tap i)) t →
        step t (.expire i) = t ∧ step t (.tap i) = t) ∧
    (step s (.expire i) ≠ s →
      ∀ t, ReachFrom (step s (.expire i)) t →
        step t (.expire i) = t ∧ step t (.tap i) = t) := by
  have hInv := inv_reachable s hs
  constructor
  · intro hne t hrt
    have hg := gone_reachFrom _ t hrt i (gone_of_tap_changed s i hInv hne)
    exact ⟨expire_noop_of_gone t i hg, tap_noop_of_gone t i hg⟩
  · intro hne t hrt
    have hg := gone_reachFrom _ t hrt i (gone_of_expire_changed s i hInv hne)
    exact ⟨expire_noop_of_gone t i hg, tap_noop_of_gone t i hg⟩

/-- Witness for `c1_catchfish_terminal` on a concrete run: spawn one fish,
catch it; the expiry that fires afterwards and a duplicate tap both leave
the state exactly unchanged. -/
theorem c1_catchfish_terminal_witness :
    step (step (step initState (.spawnTick [(100, 0)])) (.tap 0)) (.expire 0)
      = step (step initState (.spawnTick [(100, 0)])) (.tap 0) ∧
    step (step (step initState (.spawnTick [(100, 0)])) (.tap 0)) (.tap 0)
      = step (step initState (.spawnTick [(100, 0)])) (.tap 0) := by
  have h := c1_catchfish_terminal (step initState (.spawnTick [(100, 0)]))
    (ReachFrom.step ReachFrom.refl _) 0
  have hne : step (step initState (.spawnTick [(100, 0)])) (.tap 0)
      ≠ step initState (.spawnTick [(100, 0)]) := by decide
  have h2 := h.1 hne _ ReachFrom.refl
  exact ⟨h2.1, h2.2⟩

theorem spawnFish_caught (s : State) (offs : List (Int × Int)) :
    (spawnFish s offs).caughtCount = s.caughtCount := by
  unfold spawnFish
  split_ifs
  · rfl
  · cases hfp : findPlacement s offs <;> rfl

theorem escapeFish_caught (s : State) (i : Nat) :
    (escapeFish s i).caughtCount = s.caughtCount := by
  unfold escapeFish
  cases hf : s.fishes[i]? with
  | none => rfl
  | some f =>
    dsimp only
    split_ifs <;> rfl

theorem catchFish_caught_mono (s : State) (i : Nat) :
    s.caughtCount ≤ (catchFish s i).caughtCount := by
  unfold catchFish
  cases hf : s.fishes[i]? with
  | none => exact le_refl _
  | some f =>
    dsimp only
    split_ifs with h1 h2
    · exact le_refl _
    · rw [(handleWin_fields _).1]
      exact Nat.le_succ _
    · exact Nat.le_succ _

theorem step_caught_mono (s : State) (e : Event) :
    s.caughtCount ≤ (step s e).caughtCount := by
  cases e with
  | spawnTick offs =>
    show s.caughtCount ≤ (if s.spawnScheduled = true then
      (if (spawnFish { s with spawnScheduled := false } offs).isGameOver = true
       then spawnFish { s with spawnScheduled := false } offs
       else { spawnFish { s with spawnScheduled := false } offs with
              spawnScheduled := true }) else s).caughtCount
    have hsp := spawnFish_caught { s with spawnScheduled := false } offs
    split_ifs
    · rw [hsp]
    · show s.caughtCount ≤ (spawnFish { s with spawnScheduled := false } offs).caughtCount
      rw [hsp]
    · exact le_refl _
  | tap i =>
    show s.caughtCount ≤ (match s.fishes[i]? with
      | none => s
      | some f =>
        if f.interactive = true ∧ f.destroyed = false then catchFish s i
        else s).caughtCount
    cases hf : s.fishes[i]? with
    | none => exact le_refl _
    | some f =>
      dsimp only
      split_ifs
      · exact catchFish_caught_mono s i
      · exact le_refl _
  | expire i =>
    show s.caughtCount ≤ (match s.fishes[i]? with
      | none => s
      | some f => if f.destroyed = false then escapeFish s i else s).caughtCount
    cases hf : s.fishes[i]? with
    | none => exact le_refl _
    | some f =>
      dsimp only
      split_ifs
      · rw [escapeFish_caught]
      · exact le_refl _
  | destroyDone i =>
    show s.caughtCount ≤ (match s.fishes[i]? with
      | none => s
      | some f =>
        if f.pendingDestroy = true ∧ f.destroyed = false then
          setFish s i { f with destroyed := true }
        else s).caughtCount
    cases hf : s.fishes[i]? with
    | none => exact le_refl _
    | some f =>
      dsimp only
      split_ifs <;> exact le_refl _

/-- C2: in the catch-fish controller the caught counter starts at 0, never
decreases under any event, never exceeds the fixed target
`TARGET_CATCH` = 10, and the moment it reaches 10 the game-over flag is
set and no subsequent tap can increment it again. -/
theorem c2_catchfish_counter (s : State) (hs : Reachable s) :
    initState.caughtCount = 0 ∧
    TARGET_CATCH = 10 ∧
    s.caughtCount ≤ TARGET_CATCH ∧
    (∀ e, s.caughtCount ≤ (step s e).caughtCount) ∧
    (s.caughtCount = TARGET_CATCH →
      s.isGameOver = true ∧
      ∀ i, (step s (.tap i)).caughtCount = s.caughtCount) := by
  have hInv := inv_reachable s hs
  refine ⟨rfl, rfl, hInv.caught_le, step_caught_mono s, ?_⟩
  intro h10
  have hov : s.isGameOver = true := hInv.over_iff.mpr h10
  refine ⟨hov, ?_⟩
  intro i
  show (match s.fishes[i]? with
    | none => s
    | some f =>
      if f.interactive = true ∧ f.destroyed = false then catchFish s i
      else s).caughtCount = s.caughtCount
  cases hf : s.fishes[i]? with
  | none => rfl
  | some f =>
    dsimp only
    split_ifs
    · rw [catchFish_of_gameOver s i hov]
    · rfl

/-- Witness for `c2_catchfish_counter` at the initial state. -/
theorem c2_catchfish_counter_witness :
    initState.caughtCount ≤ TARGET_CATCH ∧
    initState.caughtCount ≤ (step initState (.tap 0)).caughtCount := by
  have h := c2_catchfish_counter initState ReachFrom.refl
  exact ⟨h.2.2.1, h.2.2.2.1 (.tap 0)⟩

/-- C9: in the catch-fish spawn placement, a candidate position overlapping
a live active fish within `FISH_MIN_SPACING` is never selected, the chosen
candidate is always among the first `FISH_SPAWN_MAX_ATTEMPTS` = 15 draws
(later draws are never consulted), and when every one of the 15 candidates
overlaps, the spawn is silently skipped: no fish is created, nothing else
changes, and in particular the next spawn is still scheduled — the whole
spawn tick is a state no-op. -/
theorem c9_catchfish_spawn (s : State) (hs : Reachable s) :
    (∀ offs off, findPlacement s offs = some off →
      isOverlappingFish s (candidatePos off).1 (candidatePos off).2 = false ∧
      off ∈ offs.take FISH_SPAWN_MAX_ATTEMPTS) ∧
    (∀ offs,
      findPlacement s offs = findPlacement s (offs.take FISH_SPAWN_MAX_ATTEMPTS)) ∧
    FISH_SPAWN_MAX_ATTEMPTS = 15 ∧
    (∀ offs, s.spawnScheduled = true →
      (∀ off ∈ offs.take FISH_SPAWN_MAX_ATTEMPTS,
        isOverlappingFish s (candidatePos off).1 (candidatePos off).2 = true) →
      findPlacement s offs = none ∧ step s (.spawnTick offs) = s) := by
  refine ⟨?_, ?_, rfl, ?_⟩
  · intro offs off h
    constructor
    · have := List.find?_some h
      simpa using this
    · exact List.mem_of_find?_eq_some h
  · intro offs
    unfold findPlacement
    rw [List.take_take]
    norm_num
  · intro offs hsch hall
    have hInv := inv_reachable s hs
    have hg : s.isGameOver = false := by
      by_contra hh
      have := (hInv.over_clear (by simpa using hh)).2
      rw [hsch] at this
      cases this
    have hnone : findPlacement s offs = none := by
      unfold findPlacement
      apply List.find?_eq_none.mpr
      intro off hoff
      simp [hall off hoff]
    refine ⟨hnone, ?_⟩
    show (if s.spawnScheduled = true then
      (if (spawnFish { s with spawnScheduled := false } offs).isGameOver = true
       then spawnFish { s with spawnScheduled := false } offs
       else { spawnFish { s with spawnScheduled := false } offs with
              spawnScheduled := true }) else s) = s
    have hAnone : findPlacement { s with spawnScheduled := false } offs = none :=
      hnone
    rw [if_pos hsch, spawnFish_of_none _ _ hAnone]
    rw [if_neg (by simp [hg])]
    show { s with spawnScheduled := true } = s
    rw [← hsch]

/-- Witness for `c9_catchfish_spawn` at the initial state with an empty
candidate stream (vacuously all-overlapping): the spawn tick is skipped
and the state is unchanged. -/
theorem c9_catchfish_spawn_witness :
    findPlacement initState [] = none ∧
    step initState (.spawnTick []) = initState := by
  have h := c9_catchfish_spawn initState ReachFrom.refl
  exact h.2.2.2 [] rfl (by simp)

end CatchFish
